import Mathlib

/-!
Verification development for the market-list utility module
(`src/App/market-list/utils/utils.js`): a shallow embedding of the
job-document transformer (decompose, tensorboard injection, generated-section
stripping) and its small pure helpers, together with proofs of the
specification's claims about them.

JavaScript objects are embedded as insertion-ordered association lists,
in-place mutation as state passing (a function that mutates its argument is
embedded as a function returning the updated value), and a thrown `TypeError`
as `Option.none`.
-/

namespace MarketUtils

/-! ### A model of plain JavaScript values (for `removeEmptyProperties`) -/

/-- Plain JavaScript values as handled by the lodash predicates used in the
source: `null`/`undefined`, numbers, booleans, strings, arrays and plain
objects (an object is an insertion-ordered list of own enumerable fields). -/
inductive JsVal where
  | null : JsVal
  | undef : JsVal
  | num : Int → JsVal
  | bool : Bool → JsVal
  | str : String → JsVal
  | arr : List JsVal → JsVal
  | obj : List (String × JsVal) → JsVal

/-- lodash `isObject`: arrays and plain objects, not primitives or nil. -/
def isObject : JsVal → Bool
  | .arr _ => true
  | .obj _ => true
  | _ => false

/-- lodash `isArrayLike`: values with a numeric length — arrays and strings. -/
def isArrayLike : JsVal → Bool
  | .arr _ => true
  | .str _ => true
  | _ => false

/-- lodash `isNil`: `null` or `undefined`. -/
def isNil : JsVal → Bool
  | .null => true
  | .undef => true
  | _ => false

/-- lodash `isEmpty`: nil, numbers and booleans count as empty; a string,
array or object is empty when it has no elements / own keys. -/
def isEmpty : JsVal → Bool
  | .null => true
  | .undef => true
  | .num _ => true
  | .bool _ => true
  | .str s => s.isEmpty
  | .arr xs => xs.isEmpty
  | .obj fs => fs.isEmpty

/-- Own enumerable string-keyed entries of a value, as produced by the
object spread / `Object.keys` on it (array indices become string keys). -/
def jsOwnEntries : JsVal → List (String × JsVal)
  | .obj fs => fs
  | .arr xs => xs.enum.map fun ic => (toString ic.1, ic.2)
  | _ => []

/-- The condition under which `removeEmptyProperties` deletes a key from its
shallow copy of the object: the value is empty and is an object, array-like
or nil (the source keeps non-empty values, and keeps values that are neither
objects, array-like nor nil). -/
def deletedByRemoveEmpty (v : JsVal) : Bool :=
  isEmpty v && (isObject v || isArrayLike v || isNil v)

/-- `removeEmptyProperties`: returns `undefined` (here `none`) on a
non-object input; otherwise shallow-copies the object and deletes every key
whose value is empty-like, per `deletedByRemoveEmpty`. -/
def removeEmptyProperties (o : JsVal) : Option JsVal :=
  if !isObject o then none
  else some (.obj ((jsOwnEntries o).filter fun kv => !deletedByRemoveEmpty kv.2))

/-! ### JS-object primitives used by the document transformer -/

/-- `m[k] = v` on a JS object viewed as an ordered association list: an
existing key keeps its position and gets the new value, a fresh key is
appended at the end. -/
def jsSetKey (m : List (String × Nat)) (k : String) (v : Nat) :
    List (String × Nat) :=
  match m with
  | [] => [(k, v)]
  | (k', v') :: rest =>
    if k' = k then (k', v) :: rest else (k', v') :: jsSetKey rest k v

/-- `m[k]` on a JS object: the value at the first occurrence of the key. -/
def jsGetKey (m : List (String × Nat)) (k : String) : Option Nat :=
  (m.find? fun kv => kv.1 = k).map (·.2)

/-- `delete m[k]` on a JS object (keys are unique in a JS object, so
removing every occurrence of the key is the same operation). -/
def jsDeleteKey (m : List (String × Nat)) (k : String) : List (String × Nat) :=
  m.filter fun kv => kv.1 ≠ k

/-- `Array.prototype.indexOf`: index of the first element equal to `x`,
`none` for JavaScript's `-1`. -/
def jsIndexOf : List String → String → Option Nat
  | [], _ => none
  | y :: ys, x => if y = x then some 0 else (jsIndexOf ys x).map (· + 1)

/-- `Array.prototype.indexOf` with a `fromIndex`: first index `≥ start`
holding `x`. -/
def jsIndexOfFrom (cmds : List String) (x : String) (start : Nat) :
    Option Nat :=
  (jsIndexOf (cmds.drop start) x).map (· + start)

/-- `Array.prototype.filter` where the predicate looks only at the index;
`i` is the index of the head of the remaining list. -/
def filterWithIndex (p : Nat → Bool) : List String → Nat → List String
  | [], _ => []
  | c :: rest, i =>
    if p i then c :: filterWithIndex p rest (i + 1)
    else filterWithIndex p rest (i + 1)

/-! ### The job-document data model -/

/-- `extras.tensorBoard`: a random identifier and a name→path mapping of log
directories. -/
structure TensorBoardExtras where
  randomStr : String
  logDirectories : List (String × String)
  deriving DecidableEq, Repr

/-- The document's open `extras` mapping; only the `tensorBoard` sub-record
is consulted by the functions under study. -/
structure Extras where
  tensorBoard : Option TensorBoardExtras := none
  deriving DecidableEq, Repr

/-- The `secrets` field: either a plain string (in particular the redaction
sentinel) or a name→value mapping. -/
inductive SecretsField where
  | str : String → SecretsField
  | map : List (String × String) → SecretsField
  deriving DecidableEq, Repr

/-- A task role: `commands` and `resourcePerInstance.ports`, each possibly
absent (`undefined`) on the document. -/
structure TaskRole where
  commands : Option (List String) := none
  ports : Option (List (String × Nat)) := none
  deriving DecidableEq, Repr

/-- A job specification document. `taskRoles` is an insertion-ordered
mapping role-name → task role, per the spec's data model. -/
structure Protocol where
  name : Option String := none
  virtualCluster : Option String := none
  parameters : Option (List (String × String)) := none
  taskRoles : List (String × TaskRole) := []
  deployments : Option (List String) := none
  prerequisites : Option (List String) := none
  secrets : Option SecretsField := none
  extras : Option Extras := none
  deriving DecidableEq, Repr

/-- The context handed to the decompose operation: the known
virtual-cluster names. -/
structure Context where
  vcNames : List String
  deriving DecidableEq, Repr

/-! ### Constants

`HIDE_SECRET` is defined in the source file itself. The sentinel marker
strings and notice line come from the external `./constants` module, which
is not among the source files. -/

/-- The exact redaction sentinel for a removed secrets block (source:
`const HIDE_SECRET = '******'`). -/
def HIDE_SECRET : String := "******"

/-- Modelled from the spec: begin sentinel of the custom-storage generated
section, supplied by the external constants module (exact text unknown;
modelled as a distinct marker comment line). -/
def CUSTOM_STORAGE_START : String := "# CUSTOM STORAGE START"

/-- Modelled from the spec: end sentinel of the custom-storage generated
section (external constants module). -/
def CUSTOM_STORAGE_END : String := "# CUSTOM STORAGE END"

/-- Modelled from the spec: begin sentinel of the teamwise-data generated
section (external constants module). -/
def TEAMWISE_DATA_CMD_START : String := "# TEAMWISE DATA COMMAND START"

/-- Modelled from the spec: end sentinel of the teamwise-data generated
section (external constants module). -/
def TEAMWISE_DATA_CMD_END : String := "# TEAMWISE DATA COMMAND END"

/-- Modelled from the spec: begin sentinel of the tensorboard generated
section (external constants module). -/
def TENSORBOARD_CMD_START : String := "# TENSORBOARD COMMAND START"

/-- Modelled from the spec: end sentinel of the tensorboard generated
section (external constants module). -/
def TENSORBOARD_CMD_END : String := "# TENSORBOARD COMMAND END"

/-- Modelled from the spec: the auto-generated-notice sentinel line
(external constants module). -/
def AUTO_GENERATE_NOTIFY : String := "# Auto generated code, please do not modify"

/-- The claim's notion of a container value: objects and array-like values
(arrays and strings). -/
def isContainer (v : JsVal) : Bool := isObject v || isArrayLike v

/-- The claim's notion of an empty-like value: an empty container, `null`,
or `undefined`. -/
def emptyLikeSpec (v : JsVal) : Bool := (isContainer v && isEmpty v) || isNil v

/-- The claim's notion of a non-container, non-nil primitive (always
kept). -/
def keptPrimitiveSpec (v : JsVal) : Bool := !isContainer v && !isNil v

/-- The claim's drop condition for `removeEmptyProperties`: the value is
empty-like and is not a non-container, non-nil primitive. -/
def droppedSpec (v : JsVal) : Bool := emptyLikeSpec v && !keptPrimitiveSpec v

/-! ### Path helpers -/

/-- `String.prototype.replace` with a plain-string pattern and an empty
replacement: delete the first occurrence of `pat`, scanning left to right;
the string is unchanged when `pat` does not occur. -/
def replaceFirstDrop (pat : List Char) : List Char → List Char
  | [] => []
  | c :: rest =>
    if pat.isPrefixOf (c :: rest) then (c :: rest).drop pat.length
    else c :: replaceFirstDrop pat rest

/-- `removePathPrefix(path, prefix)`: the source is
`path.replace(prefix, '')`, i.e. deletion of the first occurrence of the
second argument anywhere in the first. -/
def removePathPrefix (path p : String) : String :=
  ⟨replaceFirstDrop p.data path.data⟩

/-! ### Name uniqueness -/

/-- The candidate names tried by `createUniqueName`. -/
def indexedName (p : String) (index : Nat) : String :=
  p ++ "_" ++ toString index

/-- The `while` loop of `createUniqueName`, with explicit fuel. The source
loop always terminates because only finitely many candidate names can occur
in `usedNames`; `createUniqueName` supplies enough fuel for the fallback
base case to be unreachable. -/
def createUniqueNameAux (usedNames : List String) (p : String) :
    Nat → Nat → String × Nat
  | 0, index => (indexedName p index, index + 1)
  | fuel + 1, index =>
    let name := indexedName p index
    if usedNames.contains name then
      createUniqueNameAux usedNames p fuel (index + 1)
    else (name, index + 1)

/-- `createUniqueName(usedNames, namePrefix, startindex)`: try
`namePrefix_startindex`, `namePrefix_(startindex+1)`, … until a name not in
`usedNames` is found; return that name together with the next index. -/
def createUniqueName (usedNames : List String) (p : String)
    (startindex : Nat) : String × Nat :=
  createUniqueNameAux usedNames p (usedNames.length + 1) startindex

/-! ### Generated-section removal -/

/-- `removeTagSection(commands, beginTag, endTag)`: locate the first
`beginTag`, then the first `endTag` strictly after it (the source computes
`indexOf(endTag, beginTagIndex + 1)`, where a missing begin gives
`-1 + 1 = 0`); when both are found, keep exactly the elements with index
before the begin or after the end, otherwise return the list unchanged. -/
def removeTagSection (commands : List String) (beginTag endTag : String) :
    List String :=
  let beginTagIndex := jsIndexOf commands beginTag
  let endTagIndex := jsIndexOfFrom commands endTag
    (match beginTagIndex with | none => 0 | some i => i + 1)
  match beginTagIndex, endTagIndex with
  | some b, some e =>
    filterWithIndex (fun index => decide (index < b) || decide (e < index))
      commands 0
  | _, _ => commands

/-- A well-formed generated section for a sentinel pair: the begin sentinel
occurs somewhere, and the end sentinel occurs strictly after some occurrence
of it. This is exactly the condition under which the source's
`indexOf`-based scan finds both tags (the first begin occurrence, then an
end occurrence after it). -/
def wellFormedSection (cmds : List String) (beginTag endTag : String) : Prop :=
  ∃ i j : Fin cmds.length, i < j ∧ cmds.get i = beginTag ∧ cmds.get j = endTag

instance (cmds : List String) (beginTag endTag : String) :
    Decidable (wellFormedSection cmds beginTag endTag) := by
  unfold wellFormedSection; infer_instance

/-- The three sentinel pairs scanned by the strip pass, in scan order. -/
def generatedSectionTags : List (String × String) :=
  [(CUSTOM_STORAGE_START, CUSTOM_STORAGE_END),
   (TEAMWISE_DATA_CMD_START, TEAMWISE_DATA_CMD_END),
   (TENSORBOARD_CMD_START, TENSORBOARD_CMD_END)]

/-- The begin sentinel, notice line and end sentinel strings, i.e. every
marker line the strip pass reacts to. -/
def sentinelLines : List String :=
  [CUSTOM_STORAGE_START, CUSTOM_STORAGE_END, TEAMWISE_DATA_CMD_START,
   TEAMWISE_DATA_CMD_END, TENSORBOARD_CMD_START, TENSORBOARD_CMD_END]

/-- The tensorboard port identifier derived from `randomStr`. -/
def tensorBoardPortName (randomStr : String) : String :=
  "tensorBoardPort_" ++ randomStr

/-- `removeAutoGeneratedCodeFromProtocolTaskRoles`: for every task role with
a non-empty command list, drop the custom-storage, teamwise-data and
tensorboard sections in turn (each scan over the current list state), and —
when the document declares a tensorboard extras block — delete its port
identifier from the role's port map if present. Roles with an absent or
empty command list are skipped entirely. The source mutates the document in
place; here the updated document is returned.

`removeAutoGeneratedTaskRole` is the body of the source's
`forEach` over the task roles, acting on one role entry. -/
def removeAutoGeneratedTaskRole (tensorBoardPort : Option String)
    (kr : String × TaskRole) : String × TaskRole :=
  let taskRole := kr.2
  let commands := taskRole.commands.getD []
  if commands.isEmpty then kr
  else
    let commands :=
      removeTagSection commands CUSTOM_STORAGE_START CUSTOM_STORAGE_END
    let commands :=
      removeTagSection commands TEAMWISE_DATA_CMD_START TEAMWISE_DATA_CMD_END
    let commands :=
      removeTagSection commands TENSORBOARD_CMD_START TENSORBOARD_CMD_END
    let taskRole :=
      match tensorBoardPort, taskRole.ports with
      | some port, some ports =>
        if (jsGetKey ports port).isSome then
          { taskRole with ports := some (jsDeleteKey ports port) }
        else taskRole
      | _, _ => taskRole
    (kr.1, { taskRole with commands := some commands })

/-- The strip pass over the whole document: compute the tensorboard port
identifier (when declared) and map `removeAutoGeneratedTaskRole` over the
task roles. -/
def removeAutoGeneratedCodeFromProtocolTaskRoles (protocol : Protocol) :
    Protocol :=
  let tensorBoardPort : Option String :=
    match protocol.extras with
    | some e =>
      match e.tensorBoard with
      | some tb => some (tensorBoardPortName tb.randomStr)
      | none => none
    | none => none
  { protocol with
    taskRoles :=
      protocol.taskRoles.map (removeAutoGeneratedTaskRole tensorBoardPort) }

/-! ### Tensorboard injection -/

/-- The backgrounded tensorboard launch command: log directories joined as
comma-separated `key:path` pairs, the port taken from the container's port
list for the generated port identifier. -/
def tensorBoardLaunchCommand (tb : TensorBoardExtras) : String :=
  let portList :=
    "--port=$PAI_CONTAINER_HOST_" ++ tensorBoardPortName tb.randomStr ++
      "_PORT_LIST"
  let logPath :=
    String.intercalate "," (tb.logDirectories.map fun kv => kv.1 ++ ":" ++ kv.2)
  "(tensorboard --logdir=" ++ logPath ++ " " ++ portList ++ " &)"

/-- `addTensorBoardCommandsToProtocolTaskRoles` (the tensorboard injection
step of `populateProtocolWithDataAndTensorboard`): when `extras.tensorBoard`
is present, prepend the 4-line tensorboard block to the first task role's
commands and register the generated port (count 1) in that role's port map.
On a document with tensorboard extras but no task role the source
dereferences `undefined` and throws a `TypeError`, embedded as `none`. -/
def addTensorBoardCommandsToProtocolTaskRoles (protocol : Protocol) :
    Option Protocol :=
  match protocol.extras with
  | none => some protocol
  | some e =>
    match e.tensorBoard with
    | none => some protocol
    | some tb =>
      let tensorBoardCommands :=
        [TENSORBOARD_CMD_START, AUTO_GENERATE_NOTIFY,
          tensorBoardLaunchCommand tb, TENSORBOARD_CMD_END]
      match protocol.taskRoles with
      | [] => none
      | (firstTaskRole, r) :: rest =>
        some { protocol with
          taskRoles :=
            (firstTaskRole,
              { r with
                commands := some (tensorBoardCommands ++ r.commands.getD []),
                ports := some (jsSetKey (r.ports.getD [])
                  (tensorBoardPortName tb.randomStr) 1) }) :: rest }

/-! ### Decompose -/

/-- Modelled from the spec: the external job-info constructor
`JobBasicInfo.fromProtocol` (its module is not among the source files);
per the spec it derives a job-info value carrying the document's top-level
job metadata, in particular its recorded virtual cluster. -/
structure JobBasicInfo where
  name : Option String
  virtualCluster : Option String
  deriving DecidableEq, Repr

/-- Modelled from the spec: `JobBasicInfo.fromProtocol` reads the
document's job metadata. -/
def JobBasicInfo.fromProtocol (p : Protocol) : JobBasicInfo :=
  { name := p.name, virtualCluster := p.virtualCluster }

/-- Modelled from the spec: the external per-role constructor
`JobTaskRole.fromProtocol` is fed the role's name, spec, deployments,
prerequisites and secrets; treated here as a plain packaging of its
arguments. -/
structure JobTaskRole where
  name : String
  roleSpec : TaskRole
  deployments : List String
  prerequisites : List String
  secrets : SecretsField
  deriving DecidableEq, Repr

/-- Modelled from the spec: `JobTaskRole.fromProtocol`. -/
def JobTaskRole.fromProtocol (name : String) (roleSpec : TaskRole)
    (deployments prerequisites : List String) (secrets : SecretsField) :
    JobTaskRole :=
  { name := name, roleSpec := roleSpec, deployments := deployments,
    prerequisites := prerequisites, secrets := secrets }

/-- `populateComponents`: reset the job-info's virtual cluster to
`"default"` when the context's name list is empty or contains no name equal
to it (the source tests `isNil(vcNames.find(...))`). The source mutates the
job-info in place; here the updated value is returned. -/
def populateComponents (jobInformation : JobBasicInfo) (context : Context) :
    JobBasicInfo :=
  let vcNames := context.vcNames
  let virtualCluster := jobInformation.virtualCluster
  if vcNames.isEmpty ||
      (vcNames.find? fun vcName => some vcName = virtualCluster).isNone then
    { jobInformation with virtualCluster := some "default" }
  else jobInformation

/-- `Object.entries` on the (defaulted) secrets value: a string yields its
indexed characters, a mapping its key/value pairs. -/
def secretsEntries : SecretsField → List (String × String)
  | .str s => s.data.enum.map fun ic => (toString ic.1, String.mk [ic.2])
  | .map m => m

/-- The tuple returned by `getJobComponentsFromConfig`; the source's call to
`alert(...)` on redacted secrets is embedded as the `alerted` flag. -/
structure Components where
  jobInformation : JobBasicInfo
  taskRoles : List JobTaskRole
  parameters : List (String × String)
  secrets : List (String × String)
  extras : Extras
  alerted : Bool
  deriving DecidableEq, Repr

/-- The component-building tail of `getJobComponentsFromConfig`, applied to
the already-stripped document: default the absent collections, build the
job-info, the per-role values, the parameter and secret pair lists, and
pass `extras` through. -/
def componentsOfConfig (cfg : Protocol) (context : Context) : Components :=
  let parameters := cfg.parameters.getD []
  let taskRoles := cfg.taskRoles
  let deployments := cfg.deployments.getD []
  let prerequisites := cfg.prerequisites.getD []
  let secrets := cfg.secrets.getD (.map [])
  let extras := cfg.extras.getD {}
  let updatedJobInformation := JobBasicInfo.fromProtocol cfg
  let updatedParameters := parameters
  let alerted := decide (secrets = SecretsField.str HIDE_SECRET)
  let updatedSecrets := if alerted then [] else secretsEntries secrets
  let updatedTaskRoles := taskRoles.map fun kr =>
    JobTaskRole.fromProtocol kr.1 kr.2 deployments prerequisites secrets
  { jobInformation := populateComponents updatedJobInformation context,
    taskRoles := updatedTaskRoles,
    parameters := updatedParameters,
    secrets := updatedSecrets,
    extras := extras,
    alerted := alerted }

/-- `getJobComponentsFromConfig`: `undefined` (`none`) on an absent
document; otherwise first strip auto-generated sections from the document
(an in-place mutation in the source, so the stripped document is returned as
the post-call document state alongside the components). -/
def getJobComponentsFromConfig (jobConfig : Option Protocol)
    (context : Context) : Option (Protocol × Components) :=
  match jobConfig with
  | none => none
  | some cfg =>
    let cfg := removeAutoGeneratedCodeFromProtocolTaskRoles cfg
    some (cfg, componentsOfConfig cfg context)

/-- Decimal decoding of a digit-character list; a left inverse of
`Nat.toDigits`, used to show distinct indices give distinct generated
names. -/
def decodeDigits (ds : List Char) : Nat :=
  ds.foldl (fun acc c => acc * 10 + (c.toNat - 48)) 0

/-! ## Helper lemmas on the indexed scans -/

theorem jsIndexOf_eq_none {xs : List String} {x : String} (h : x ∉ xs) :
    jsIndexOf xs x = none := by
  induction xs with
  | nil => rfl
  | cons y ys ih =>
    simp only [List.mem_cons, not_or] at h
    simp only [jsIndexOf, if_neg (Ne.symm h.1), ih h.2, Option.map_none']

theorem jsIndexOf_append_of_not_mem {xs : List String} (ys : List String)
    {x : String} (h : x ∉ xs) :
    jsIndexOf (xs ++ ys) x = (jsIndexOf ys x).map (· + xs.length) := by
  induction xs with
  | nil =>
    simp only [List.nil_append, List.length_nil]
    cases h' : jsIndexOf ys x <;> simp [h']
  | cons y xs' ih =>
    simp only [List.mem_cons, not_or] at h
    show (if y = x then some 0
        else (jsIndexOf (xs' ++ ys) x).map (· + 1))
      = (jsIndexOf ys x).map (· + (y :: xs').length)
    rw [if_neg (Ne.symm h.1), ih h.2]
    cases h' : jsIndexOf ys x <;> simp [h', Nat.add_assoc]

theorem jsIndexOf_first {xs : List String} (ys : List String) {x : String}
    (h : x ∉ xs) : jsIndexOf (xs ++ x :: ys) x = some xs.length := by
  rw [jsIndexOf_append_of_not_mem _ h]
  simp [jsIndexOf]

theorem jsIndexOf_some_get? {xs : List String} {x : String} {i : Nat}
    (h : jsIndexOf xs x = some i) : xs.get? i = some x := by
  induction xs generalizing i with
  | nil => simp [jsIndexOf] at h
  | cons y ys ih =>
    by_cases hy : y = x
    · simp only [jsIndexOf, if_pos hy] at h
      cases h
      simpa using hy
    · simp only [jsIndexOf, if_neg hy, Option.map_eq_some'] at h
      obtain ⟨i', hi', rfl⟩ := h
      simpa using ih hi'

theorem jsIndexOfFrom_some_spec {cmds : List String} {x : String}
    {s e : Nat} (h : jsIndexOfFrom cmds x s = some e) :
    s ≤ e ∧ cmds.get? e = some x := by
  simp only [jsIndexOfFrom, Option.map_eq_some'] at h
  obtain ⟨i, hi, rfl⟩ := h
  refine ⟨Nat.le_add_left _ _, ?_⟩
  have := jsIndexOf_some_get? hi
  rwa [List.get?_drop, Nat.add_comm] at this

theorem filterWithIndex_append (p : Nat → Bool) (xs ys : List String)
    (i : Nat) :
    filterWithIndex p (xs ++ ys) i =
      filterWithIndex p xs i ++ filterWithIndex p ys (i + xs.length) := by
  induction xs generalizing i with
  | nil => simp [filterWithIndex]
  | cons c rest ih =>
    have harith : i + 1 + rest.length = i + (rest.length + 1) := by omega
    by_cases hp : p i
    · simp [filterWithIndex, hp, ih, harith]
    · simp [filterWithIndex, hp, ih, harith]

theorem filterWithIndex_all_keep {p : Nat → Bool} {xs : List String}
    {i : Nat} (h : ∀ k, k < xs.length → p (i + k) = true) :
    filterWithIndex p xs i = xs := by
  induction xs generalizing i with
  | nil => rfl
  | cons c rest ih =>
    have h0 : p i = true := by simpa using h 0 (by simp)
    have hrest : ∀ k, k < rest.length → p (i + 1 + k) = true := by
      intro k hk
      have := h (k + 1) (by simpa using Nat.succ_lt_succ hk)
      rwa [show i + (k + 1) = i + 1 + k by omega] at this
    simp [filterWithIndex, h0, ih hrest]

theorem filterWithIndex_all_drop {p : Nat → Bool} {xs : List String}
    {i : Nat} (h : ∀ k, k < xs.length → p (i + k) = false) :
    filterWithIndex p xs i = [] := by
  induction xs generalizing i with
  | nil => rfl
  | cons c rest ih =>
    have h0 : p i = false := by simpa using h 0 (by simp)
    have hrest : ∀ k, k < rest.length → p (i + 1 + k) = false := by
      intro k hk
      have := h (k + 1) (by simpa using Nat.succ_lt_succ hk)
      rwa [show i + (k + 1) = i + 1 + k by omega] at this
    simp [filterWithIndex, h0, ih hrest]

/-! ## Helper lemmas on `removeTagSection` -/

theorem removeTagSection_of_not_mem {cmds : List String} {beginTag : String}
    (endTag : String) (h : beginTag ∉ cmds) :
    removeTagSection cmds beginTag endTag = cmds := by
  simp only [removeTagSection, jsIndexOf_eq_none h]

theorem not_wellFormedSection_of_not_mem {cmds : List String}
    {beginTag : String} (endTag : String) (h : beginTag ∉ cmds) :
    ¬ wellFormedSection cmds beginTag endTag := by
  rintro ⟨i, j, -, hget, -⟩
  exact h (hget ▸ List.get_mem cmds i.val i.isLt)

theorem removeTagSection_of_not_wellFormed {cmds : List String}
    {beginTag endTag : String}
    (h : ¬ wellFormedSection cmds beginTag endTag) :
    removeTagSection cmds beginTag endTag = cmds := by
  simp only [removeTagSection]
  cases hb : jsIndexOf cmds beginTag with
  | none => rfl
  | some b =>
    cases he : jsIndexOfFrom cmds endTag (b + 1) with
    | none => rfl
    | some e =>
      exfalso
      apply h
      obtain ⟨hbe, hget⟩ := jsIndexOfFrom_some_spec he
      obtain ⟨hlt', hgetb⟩ := List.get?_eq_some.1 (jsIndexOf_some_get? hb)
      obtain ⟨hlt, hgete⟩ := List.get?_eq_some.1 hget
      exact ⟨⟨b, hlt'⟩, ⟨e, hlt⟩, Fin.mk_lt_mk.2 (by omega), hgetb, hgete⟩

theorem removeTagSection_found {xs ys zs : List String}
    {beginTag endTag : String} (hbt : beginTag ∉ xs) (het : endTag ∉ ys) :
    removeTagSection (xs ++ beginTag :: (ys ++ endTag :: zs)) beginTag
      endTag = xs ++ zs := by
  have hb : jsIndexOf (xs ++ beginTag :: (ys ++ endTag :: zs)) beginTag
      = some xs.length := jsIndexOf_first _ hbt
  have hdrop :
      (xs ++ beginTag :: (ys ++ endTag :: zs)).drop (xs.length + 1)
      = ys ++ endTag :: zs := by
    rw [show xs ++ beginTag :: (ys ++ endTag :: zs)
        = (xs ++ [beginTag]) ++ (ys ++ endTag :: zs) by simp,
      show xs.length + 1 = (xs ++ [beginTag]).length by simp,
      List.drop_left]
  have he : jsIndexOfFrom (xs ++ beginTag :: (ys ++ endTag :: zs)) endTag
      (xs.length + 1) = some (xs.length + 1 + ys.length) := by
    rw [jsIndexOfFrom, hdrop, jsIndexOf_first _ het]
    simp [Nat.add_comm]
  rw [removeTagSection, hb]
  have hshape : xs ++ beginTag :: (ys ++ endTag :: zs)
      = (xs ++ (beginTag :: (ys ++ [endTag]))) ++ zs := by simp
  rw [show (match some xs.length with
      | none => 0 | some i => i + 1) = xs.length + 1 from rfl, he]
  rw [hshape]
  show filterWithIndex
      (fun index => decide (index < xs.length) ||
        decide (xs.length + 1 + ys.length < index))
      ((xs ++ (beginTag :: (ys ++ [endTag]))) ++ zs) 0 = xs ++ zs
  rw [filterWithIndex_append, filterWithIndex_append]
  have h1 : filterWithIndex
      (fun index => decide (index < xs.length) ||
        decide (xs.length + 1 + ys.length < index)) xs 0 = xs := by
    apply filterWithIndex_all_keep
    intro k hk
    simp only [Nat.zero_add, Bool.or_eq_true, decide_eq_true_eq]
    omega
  have h2 : filterWithIndex
      (fun index => decide (index < xs.length) ||
        decide (xs.length + 1 + ys.length < index))
      (beginTag :: (ys ++ [endTag])) (0 + xs.length) = [] := by
    apply filterWithIndex_all_drop
    intro k hk
    simp only [List.length_cons, List.length_append, List.length_singleton,
      List.length_nil] at hk
    simp only [Bool.or_eq_false_iff, decide_eq_false_iff_not]
    omega
  have h3 : filterWithIndex
      (fun index => decide (index < xs.length) ||
        decide (xs.length + 1 + ys.length < index)) zs
      (0 + (xs ++ beginTag :: (ys ++ [endTag])).length) = zs := by
    apply filterWithIndex_all_keep
    intro k hk
    simp only [List.length_append, List.length_cons, List.length_singleton,
      List.length_nil, Bool.or_eq_true, decide_eq_true_eq]
    omega
  rw [h1, h2, h3]
  simp

/-! ## Helper lemmas on the JS-object primitives -/

theorem jsSetKey_of_not_mem {m : List (String × Nat)} {k : String} (v : Nat)
    (h : ∀ q ∈ m, q.1 ≠ k) : jsSetKey m k v = m ++ [(k, v)] := by
  induction m with
  | nil => rfl
  | cons q rest ih =>
    have hq : q.1 ≠ k := h q (List.mem_cons_self _ _)
    obtain ⟨k', v'⟩ := q
    simp only [jsSetKey, if_neg hq, List.cons_append]
    rw [ih fun q' hq' => h q' (List.mem_cons_of_mem _ hq')]

theorem jsGetKey_eq_none {m : List (String × Nat)} {k : String}
    (h : ∀ q ∈ m, q.1 ≠ k) : jsGetKey m k = none := by
  simp only [jsGetKey, Option.map_eq_none', List.find?_eq_none,
    decide_eq_true_eq]
  exact h

theorem jsGetKey_setKey_self (m : List (String × Nat)) (k : String)
    (v : Nat) : jsGetKey (jsSetKey m k v) k = some v := by
  induction m with
  | nil => simp [jsSetKey, jsGetKey, List.find?]
  | cons q rest ih =>
    obtain ⟨k', v'⟩ := q
    by_cases hq : k' = k
    · simp [jsSetKey, hq, jsGetKey, List.find?]
    · simp only [jsSetKey, if_neg hq, jsGetKey, List.find?]
      rw [decide_eq_false hq]
      exact ih

theorem jsDeleteKey_setKey_of_not_mem {m : List (String × Nat)} {k : String}
    (v : Nat) (h : ∀ q ∈ m, q.1 ≠ k) :
    jsDeleteKey (jsSetKey m k v) k = m := by
  rw [jsSetKey_of_not_mem v h, jsDeleteKey, List.filter_append]
  have h1 : m.filter (fun kv => kv.1 ≠ k) = m :=
    List.filter_eq_self.2 fun q hq => by simpa using h q hq
  have h2 : List.filter (fun kv => kv.1 ≠ k) [(k, v)] = [] := by
    simp [List.filter]
  rw [h1, h2, List.append_nil]

/-! ## The injected tensorboard launch line never collides with a sentinel

Every sentinel line is a `#` comment, while the launch command starts with
`(`; the disequalities below let the strip scans recognise exactly the
injected block. -/

theorem tensorBoardLaunchCommand_head (tb : TensorBoardExtras) :
    (tensorBoardLaunchCommand tb).data.head? = some '(' := by
  simp only [tensorBoardLaunchCommand, String.data_append, List.head?_append]
  rfl

theorem sentinel_ne_launch {s : String} (hs : s.data.head? = some '#')
    (tb : TensorBoardExtras) : s ≠ tensorBoardLaunchCommand tb := by
  intro e
  have h := tensorBoardLaunchCommand_head tb
  rw [← e, hs] at h
  exact absurd h (by decide)

/-! ## Per-role behaviour of the strip pass -/

theorem removeAutoGeneratedTaskRole_id (tbPort : Option String)
    (kr : String × TaskRole)
    (hsec : ∀ tags ∈ generatedSectionTags,
      ¬ wellFormedSection (kr.2.commands.getD []) tags.1 tags.2)
    (hport : ∀ port, tbPort = some port → ∀ ports,
      kr.2.ports = some ports → jsGetKey ports port = none) :
    removeAutoGeneratedTaskRole tbPort kr = kr := by
  obtain ⟨k, r⟩ := kr
  unfold removeAutoGeneratedTaskRole
  by_cases hemp : (r.commands.getD []).isEmpty
  · simp [hemp]
  · simp only [hemp, Bool.false_eq_true, if_false]
    rw [removeTagSection_of_not_wellFormed
        (hsec (CUSTOM_STORAGE_START, CUSTOM_STORAGE_END)
          (by simp [generatedSectionTags])),
      removeTagSection_of_not_wellFormed
        (hsec (TEAMWISE_DATA_CMD_START, TEAMWISE_DATA_CMD_END)
          (by simp [generatedSectionTags])),
      removeTagSection_of_not_wellFormed
        (hsec (TENSORBOARD_CMD_START, TENSORBOARD_CMD_END)
          (by simp [generatedSectionTags]))]
    have hcmd : r.commands = some (r.commands.getD []) := by
      cases hc : r.commands with
      | none => rw [hc] at hemp; simp at hemp
      | some l => rfl
    cases htp : tbPort with
    | none => rw [← hcmd]
    | some port =>
      cases hp : r.ports with
      | none => rw [← hcmd]
      | some ports =>
        have hget : jsGetKey ports port = none := hport port htp ports hp
        simp only [hget, Option.isSome_none, Bool.false_eq_true, if_false]
        rw [← hcmd]

theorem removeAutoGeneratedTaskRole_commands (tbPort : Option String)
    (kr : String × TaskRole)
    (hsec : ∀ tags ∈ generatedSectionTags,
      ¬ wellFormedSection (kr.2.commands.getD []) tags.1 tags.2) :
    (removeAutoGeneratedTaskRole tbPort kr).1 = kr.1 ∧
      (removeAutoGeneratedTaskRole tbPort kr).2.commands = kr.2.commands := by
  obtain ⟨k, r⟩ := kr
  unfold removeAutoGeneratedTaskRole
  by_cases hemp : (r.commands.getD []).isEmpty
  · simp [hemp]
  · simp only [hemp, Bool.false_eq_true, if_false]
    rw [removeTagSection_of_not_wellFormed
        (hsec (CUSTOM_STORAGE_START, CUSTOM_STORAGE_END)
          (by simp [generatedSectionTags])),
      removeTagSection_of_not_wellFormed
        (hsec (TEAMWISE_DATA_CMD_START, TEAMWISE_DATA_CMD_END)
          (by simp [generatedSectionTags])),
      removeTagSection_of_not_wellFormed
        (hsec (TENSORBOARD_CMD_START, TENSORBOARD_CMD_END)
          (by simp [generatedSectionTags]))]
    have hcmd : r.commands = some (r.commands.getD []) := by
      cases hc : r.commands with
      | none => rw [hc] at hemp; simp at hemp
      | some l => rfl
    constructor
    · cases tbPort <;> cases r.ports <;> simp
    · cases htp : tbPort with
      | none => simpa using hcmd.symm
      | some port =>
        cases hp : r.ports with
        | none => simpa using hcmd.symm
        | some ports =>
          by_cases hgs : (jsGetKey ports port).isSome <;>
            simp [hgs, hcmd.symm]

/-! ## Helper lemmas on `replaceFirstDrop` -/

theorem replaceFirstDrop_no_occurrence {pat s : List Char}
    (h : ¬ pat <:+: s) : replaceFirstDrop pat s = s := by
  induction s with
  | nil => rfl
  | cons c rest ih =>
    have h1 : ¬ pat.isPrefixOf (c :: rest) := by
      intro hp
      exact h (List.IsPrefix.isInfix (List.isPrefixOf_iff_prefix.1 hp))
    rw [replaceFirstDrop, if_neg h1,
      ih fun hi => h (List.infix_cons hi)]

theorem replaceFirstDrop_head_occurrence {pat s : List Char} (h : pat <+: s) :
    replaceFirstDrop pat s = s.drop pat.length := by
  cases s with
  | nil =>
    have : pat = [] := List.prefix_nil.1 h
    subst this
    rfl
  | cons c rest =>
    rw [replaceFirstDrop, if_pos (List.isPrefixOf_iff_prefix.2 h)]

theorem replaceFirstDrop_first_occurrence {pat : List Char} :
    ∀ (a : List Char) {s b : List Char}, s = a ++ pat ++ b →
      (∀ k : Fin a.length, ¬ pat <+: s.drop k.val) →
      replaceFirstDrop pat s = a ++ b := by
  intro a
  induction a with
  | nil =>
    intro s b hs _
    subst hs
    rw [replaceFirstDrop_head_occurrence (by simp),
      List.nil_append, List.drop_left]
    rfl
  | cons c a' ih =>
    intro s b hs hmin
    subst hs
    have h0 : ¬ pat <+: (c :: a' ++ pat ++ b) := by
      simpa using hmin ⟨0, by simp⟩
    have hnot : ¬ pat.isPrefixOf (c :: (a' ++ pat ++ b)) := by
      intro hp
      exact h0 (by simpa using List.isPrefixOf_iff_prefix.1 hp)
    rw [show (c :: a') ++ pat ++ b = c :: (a' ++ pat ++ b) by simp,
      replaceFirstDrop, if_neg hnot,
      ih rfl fun k => by simpa using hmin ⟨k.val + 1, Nat.succ_lt_succ k.isLt⟩]
    rfl

/-! ## Claims -/

/-- C9: on an absent (null/undefined) input document,
`getJobComponentsFromConfig` returns `undefined` without raising and
without transforming anything. -/
theorem getJobComponentsFromConfig_absent (context : Context) :
    getJobComponentsFromConfig none context = none := rfl

/-- C10: `removePathPrefix(path, prefix)` deletes the first occurrence of
`prefix` anywhere in `path` (not only a leading one): if `prefix` does not
occur, the result is `path` unchanged; otherwise the earliest occurrence is
deleted — in particular a middle occurrence. -/
theorem removePathPrefix_spec (path p : String) :
    (¬ p.data <:+: path.data → removePathPrefix path p = path) ∧
    (∀ a b : List Char, path.data = a ++ p.data ++ b →
      (∀ k : Fin a.length, ¬ p.data <+: path.data.drop k.val) →
      removePathPrefix path p = ⟨a ++ b⟩) := by
  constructor
  · intro h
    show (⟨replaceFirstDrop p.data path.data⟩ : String) = path
    rw [replaceFirstDrop_no_occurrence h]
  · intro a b hs hmin
    show (⟨replaceFirstDrop p.data path.data⟩ : String) = ⟨a ++ b⟩
    rw [replaceFirstDrop_first_occurrence a hs hmin]

/-- C10 witness: a path without the pattern is unchanged, and a strictly
internal occurrence is deleted. -/
theorem removePathPrefix_spec_witness :
    removePathPrefix "xy" "abc" = "xy" ∧
    removePathPrefix "xabcy" "abc" = "xy" := by
  constructor
  · exact (removePathPrefix_spec "xy" "abc").1 (by decide)
  · have h := (removePathPrefix_spec "xabcy" "abc").2 ['x'] ['y']
      (by decide) (by decide)
    exact h

/-- C7: `removeEmptyProperties` drops a key exactly when its value is
empty-like (empty container, null or undefined) and is not a non-container,
non-nil primitive; in particular
`removeEmptyProperties {a: [], b: null, c: 0, d: "x", e: {}}`
yields `{c: 0, d: "x"}`. -/
theorem removeEmptyProperties_spec :
    (∀ v : JsVal, deletedByRemoveEmpty v = droppedSpec v) ∧
    (∀ fields : List (String × JsVal),
      removeEmptyProperties (.obj fields) =
        some (.obj (fields.filter fun kv => !droppedSpec kv.2))) ∧
    removeEmptyProperties (.obj [("a", .arr []), ("b", .null),
        ("c", .num 0), ("d", .str "x"), ("e", .obj [])]) =
      some (.obj [("c", .num 0), ("d", .str "x")]) := by
  have hpt : ∀ v : JsVal, deletedByRemoveEmpty v = droppedSpec v := by
    intro v
    cases v <;>
      simp [deletedByRemoveEmpty, droppedSpec, emptyLikeSpec,
        keptPrimitiveSpec, isContainer, isObject, isArrayLike, isNil,
        isEmpty]
  refine ⟨hpt, ?_, rfl⟩
  intro fields
  show some (JsVal.obj (fields.filter fun kv => !deletedByRemoveEmpty kv.2))
    = some (JsVal.obj (fields.filter fun kv => !droppedSpec kv.2))
  rw [List.filter_congr fun kv _ => by rw [hpt kv.2]]

/-- How `populateComponents` resolves the virtual cluster: reset to
`"default"` exactly when the known-name list is empty or does not contain
the job-info's recorded virtual cluster (an absent recorded cluster is never
contained). -/
theorem populateComponents_virtualCluster (info : JobBasicInfo)
    (context : Context) :
    (populateComponents info context).virtualCluster =
      (if context.vcNames.isEmpty ||
          !(match info.virtualCluster with
            | some v => context.vcNames.contains v
            | none => false)
        then some "default" else info.virtualCluster) := by
  unfold populateComponents
  cases hv : info.virtualCluster with
  | none =>
    have hfind : (context.vcNames.find? fun vcName =>
        decide (some vcName = info.virtualCluster)) = none := by
      rw [List.find?_eq_none]
      intro x _
      simp [hv]
    simp [hfind, hv]
  | some v =>
    simp only [hv]
    by_cases hc : v ∈ context.vcNames
    · have hfind : (context.vcNames.find? fun vcName =>
          decide (some vcName = some v)).isSome := by
        rw [List.find?_isSome]
        exact ⟨v, hc, by simp⟩
      have hnone : (context.vcNames.find? fun vcName =>
          decide (some vcName = some v)).isNone = false := by
        rw [Bool.eq_false_iff]
        intro h
        rw [Option.isNone_iff_eq_none] at h
        rw [h] at hfind
        exact absurd hfind (by simp)
      by_cases hemp : context.vcNames.isEmpty
      · simp [hemp]
      · have hcb : context.vcNames.contains v = true := List.elem_iff.2 hc
        simp only [hemp, hnone, hcb, hv, Bool.false_or, Bool.not_true,
          Bool.false_eq_true, if_false]
    · have hfind : (context.vcNames.find? fun vcName =>
          decide (some vcName = some v)) = none := by
        rw [List.find?_eq_none]
        intro x hx
        simp only [decide_eq_true_eq, Option.some.injEq]
        intro hxv
        exact hc (hxv ▸ hx)
      have hcb : context.vcNames.contains v = false := by
        simp only [← List.elem_iff] at hc
        simpa using hc
      simp only [hfind, hcb, Option.isNone_none, Bool.or_true,
        Bool.not_false, if_true]

/-- C8: the job-info returned by `getJobComponentsFromConfig` carries the
virtual cluster `"default"` whenever the context's known name set is empty
or does not contain the document's recorded virtual cluster, and the
recorded one otherwise. -/
theorem getJobComponentsFromConfig_virtualCluster (p : Protocol)
    (context : Context) :
    ∃ pc : Protocol × Components,
      getJobComponentsFromConfig (some p) context = some pc ∧
      pc.2.jobInformation.virtualCluster =
        (if context.vcNames.isEmpty ||
            !(match p.virtualCluster with
              | some v => context.vcNames.contains v
              | none => false)
          then some "default" else p.virtualCluster) := by
  refine ⟨(removeAutoGeneratedCodeFromProtocolTaskRoles p,
    componentsOfConfig (removeAutoGeneratedCodeFromProtocolTaskRoles p)
      context), rfl, ?_⟩
  show (populateComponents
      (JobBasicInfo.fromProtocol
        (removeAutoGeneratedCodeFromProtocolTaskRoles p))
      context).virtualCluster = _
  rw [populateComponents_virtualCluster]
  rfl

/-- The secrets pair list and warning flag produced by the component
builder, spelled from its definition. -/
theorem componentsOfConfig_secrets (cfg : Protocol) (context : Context) :
    (componentsOfConfig cfg context).secrets =
      (if decide (cfg.secrets.getD (.map []) = SecretsField.str HIDE_SECRET)
        then [] else secretsEntries (cfg.secrets.getD (.map []))) ∧
    (componentsOfConfig cfg context).alerted =
      decide (cfg.secrets.getD (.map []) = SecretsField.str HIDE_SECRET) :=
  ⟨rfl, rfl⟩

/-- C5: on a document whose secrets block equals the redaction sentinel,
`getJobComponentsFromConfig` returns an empty secrets pair list and surfaces
a user-facing warning (no exception; the rest of the components are still
produced); on a secrets mapping it returns one pair per entry with no
warning, likewise an empty list on an absent secrets block. -/
theorem getJobComponentsFromConfig_secrets (p : Protocol)
    (context : Context) :
    ∃ pc : Protocol × Components,
      getJobComponentsFromConfig (some p) context = some pc ∧
      (p.secrets = some (SecretsField.str HIDE_SECRET) →
        pc.2.secrets = [] ∧ pc.2.alerted = true) ∧
      (∀ m, p.secrets = some (SecretsField.map m) →
        pc.2.secrets = m ∧ pc.2.alerted = false) ∧
      (p.secrets = none → pc.2.secrets = [] ∧ pc.2.alerted = false) := by
  have hpres : (removeAutoGeneratedCodeFromProtocolTaskRoles p).secrets
      = p.secrets := rfl
  obtain ⟨hsec, halert⟩ := componentsOfConfig_secrets
    (removeAutoGeneratedCodeFromProtocolTaskRoles p) context
  rw [hpres] at hsec halert
  refine ⟨(removeAutoGeneratedCodeFromProtocolTaskRoles p,
    componentsOfConfig (removeAutoGeneratedCodeFromProtocolTaskRoles p)
      context), rfl, ?_, ?_, ?_⟩
  · intro h
    rw [h] at hsec halert
    simp only [Option.getD_some, decide_eq_true_eq] at hsec halert
    exact ⟨by rw [hsec]; simp, by rw [halert]; simp⟩
  · intro m h
    rw [h] at hsec halert
    have hne : decide ((some (SecretsField.map m)).getD (.map [])
        = SecretsField.str HIDE_SECRET) = false := by
      simp
    rw [hne] at hsec halert
    exact ⟨by rw [hsec]; rfl, halert⟩
  · intro h
    rw [h] at hsec halert
    have hne : decide ((none : Option SecretsField).getD (.map [])
        = SecretsField.str HIDE_SECRET) = false := by
      simp
    rw [hne] at hsec halert
    exact ⟨by rw [hsec]; rfl, halert⟩

/-- C5 witness: a concrete redacted document yields the empty pair list and
the warning flag. -/
theorem getJobComponentsFromConfig_secrets_witness :
    ∃ pc : Protocol × Components,
      getJobComponentsFromConfig
        (some { secrets := some (SecretsField.str HIDE_SECRET) }) ⟨[]⟩
        = some pc ∧
      pc.2.secrets = [] ∧ pc.2.alerted = true := by
  obtain ⟨pc, h1, h2, -, -⟩ := getJobComponentsFromConfig_secrets
    { secrets := some (SecretsField.str HIDE_SECRET) } ⟨[]⟩
  exact ⟨pc, h1, h2 rfl⟩

/-- C3: a sentinel pair's section is removed as a contiguous begin-to-end
run exactly when the begin sentinel is found and the end sentinel is found
strictly after it; if either is missing, or the end occurs only at or
before the begin, the command list is returned unchanged and no error is
raised — so a document with no well-formed generated section in any role
keeps every role's commands exactly as-is across the strip pass. -/
theorem removeTagSection_spec :
    (∀ (xs ys zs : List String) (beginTag endTag : String),
      beginTag ∉ xs → endTag ∉ ys →
      removeTagSection (xs ++ beginTag :: (ys ++ endTag :: zs)) beginTag
        endTag = xs ++ zs) ∧
    (∀ (cmds : List String) (beginTag endTag : String),
      ¬ wellFormedSection cmds beginTag endTag →
      removeTagSection cmds beginTag endTag = cmds) ∧
    (∀ p : Protocol,
      (∀ kr ∈ p.taskRoles, ∀ tags ∈ generatedSectionTags,
        ¬ wellFormedSection (kr.2.commands.getD []) tags.1 tags.2) →
      (removeAutoGeneratedCodeFromProtocolTaskRoles p).taskRoles.map
          (fun kr => (kr.1, kr.2.commands)) =
        p.taskRoles.map (fun kr => (kr.1, kr.2.commands))) := by
  refine ⟨fun xs ys zs beginTag endTag hbt het =>
      removeTagSection_found hbt het,
    fun cmds beginTag endTag h => removeTagSection_of_not_wellFormed h, ?_⟩
  intro p hp
  rw [show (removeAutoGeneratedCodeFromProtocolTaskRoles p).taskRoles
      = p.taskRoles.map (removeAutoGeneratedTaskRole
          (match p.extras with
            | some e =>
              (match e.tensorBoard with
                | some tb => some (tensorBoardPortName tb.randomStr)
                | none => none)
            | none => none)) from rfl]
  rw [List.map_map]
  apply List.map_congr_left
  intro kr hkr
  have h := removeAutoGeneratedTaskRole_commands
    (match p.extras with
      | some e =>
        (match e.tensorBoard with
          | some tb => some (tensorBoardPortName tb.randomStr)
          | none => none)
      | none => none) kr (hp kr hkr)
  simp only [Function.comp]
  rw [h.1, h.2]

/-- C3 witness: a well-formed custom-storage section is cut out, a
malformed one (missing end sentinel) is left untouched, and the strip pass
leaves a sentinel-free document's commands unchanged. -/
theorem removeTagSection_spec_witness :
    removeTagSection ["echo a", CUSTOM_STORAGE_START, "mount x",
        CUSTOM_STORAGE_END, "echo b"] CUSTOM_STORAGE_START
        CUSTOM_STORAGE_END = ["echo a", "echo b"] ∧
    removeTagSection ["echo a", CUSTOM_STORAGE_START] CUSTOM_STORAGE_START
        CUSTOM_STORAGE_END = ["echo a", CUSTOM_STORAGE_START] ∧
    (removeAutoGeneratedCodeFromProtocolTaskRoles
        { taskRoles :=
            [("a", { commands := some ["echo hi"], ports := some [] })] }
      ).taskRoles.map (fun kr => (kr.1, kr.2.commands)) =
      ({ taskRoles :=
          [("a", { commands := some ["echo hi"], ports := some [] })] }
        : Protocol).taskRoles.map (fun kr => (kr.1, kr.2.commands)) := by
  refine ⟨?_, ?_, removeTagSection_spec.2.2 _ (by decide)⟩
  · exact removeTagSection_spec.1 ["echo a"] ["mount x"] ["echo b"]
      CUSTOM_STORAGE_START CUSTOM_STORAGE_END (by decide) (by decide)
  · exact removeTagSection_spec.2.1 _ _ _ (by decide)

/-- C4: with a non-empty `taskRoles` mapping and a tensorboard extras
record present, the injection step prepends exactly the 4-line block
(begin sentinel, notice, launch command over the comma-joined `key:path`
pairs with the `randomStr`-derived port identifier, end sentinel) to the
first task role's commands only, leaves every other role untouched, and
registers the generated port with count 1 in the first role's port map. -/
theorem addTensorBoardCommands_spec (p : Protocol) (k : String)
    (r : TaskRole) (rest : List (String × TaskRole)) (e : Extras)
    (tb : TensorBoardExtras) (hroles : p.taskRoles = (k, r) :: rest)
    (hex : p.extras = some e) (htb : e.tensorBoard = some tb) :
    addTensorBoardCommandsToProtocolTaskRoles p =
      some { p with taskRoles :=
        (k, { r with
          commands := some
            ([TENSORBOARD_CMD_START, AUTO_GENERATE_NOTIFY,
              tensorBoardLaunchCommand tb, TENSORBOARD_CMD_END] ++
              r.commands.getD []),
          ports := some (jsSetKey (r.ports.getD [])
            (tensorBoardPortName tb.randomStr) 1) }) :: rest } := by
  unfold addTensorBoardCommandsToProtocolTaskRoles
  simp only [hex, htb, hroles]

/-- C4 witness: evaluation on a concrete single-role document. -/
theorem addTensorBoardCommands_spec_witness :
    addTensorBoardCommandsToProtocolTaskRoles
      { taskRoles :=
          [("a", { commands := some ["echo"], ports := some [] }),
           ("b", { commands := some ["sleep"], ports := some [] })],
        extras := some
          { tensorBoard := some
              { randomStr := "r", logDirectories := [("default", "/d")] } } }
      =
    some
      { taskRoles :=
          [("a",
            { commands := some
                [TENSORBOARD_CMD_START, AUTO_GENERATE_NOTIFY,
                 tensorBoardLaunchCommand
                   { randomStr := "r",
                     logDirectories := [("default", "/d")] },
                 TENSORBOARD_CMD_END, "echo"],
              ports := some [("tensorBoardPort_r", 1)] }),
           ("b", { commands := some ["sleep"], ports := some [] })],
        extras := some
          { tensorBoard := some
              { randomStr := "r", logDirectories := [("default", "/d")] } } }
      := by
  have h := addTensorBoardCommands_spec
    { taskRoles :=
        [("a", { commands := some ["echo"], ports := some [] }),
         ("b", { commands := some ["sleep"], ports := some [] })],
      extras := some
        { tensorBoard := some
            { randomStr := "r", logDirectories := [("default", "/d")] } } }
    "a" { commands := some ["echo"], ports := some [] }
    [("b", { commands := some ["sleep"], ports := some [] })]
    { tensorBoard := some
        { randomStr := "r", logDirectories := [("default", "/d")] } }
    { randomStr := "r", logDirectories := [("default", "/d")] }
    rfl rfl rfl
  exact h.trans (by decide)

/-! ## Decimal-representation facts for `createUniqueName`

The candidate names `prefix_N` are pairwise distinct because decimal
printing is injective; with finitely many used names the scan therefore
finds a free name within `usedNames.length + 1` attempts. -/

theorem decodeDigits_foldl_shift (ds : List Char) (a : Nat) :
    ds.foldl (fun acc c => acc * 10 + (c.toNat - 48)) a =
      a * 10 ^ ds.length +
        ds.foldl (fun acc c => acc * 10 + (c.toNat - 48)) 0 := by
  induction ds generalizing a with
  | nil => simp
  | cons c rest ih =>
    simp only [List.foldl_cons, List.length_cons]
    rw [ih (a * 10 + (c.toNat - 48)), ih (0 * 10 + (c.toNat - 48)),
      pow_succ]
    ring

theorem decodeDigits_toDigitsCore (fuel : Nat) :
    ∀ (n : Nat) (ds : List Char), n < 10 ^ fuel →
      decodeDigits (Nat.toDigitsCore 10 fuel n ds) =
        n * 10 ^ ds.length + decodeDigits ds := by
  induction fuel with
  | zero =>
    intro n ds h
    have hn : n = 0 := by simpa using Nat.lt_one_iff.1 (by simpa using h)
    subst hn
    simp [Nat.toDigitsCore]
  | succ fuel ih =>
    intro n ds h
    have hdv : ∀ m : Fin 10, (Nat.digitChar m.val).toNat - 48 = m.val := by
      decide
    have hmod : n % 10 < 10 := Nat.mod_lt _ (by norm_num)
    have hv : (Nat.digitChar (n % 10)).toNat - 48 = n % 10 := hdv ⟨n % 10, hmod⟩
    by_cases hq : n / 10 = 0
    · rw [Nat.toDigitsCore]
      simp only [hq, if_true, reduceIte]
      simp only [decodeDigits, List.foldl_cons]
      rw [decodeDigits_foldl_shift ds (0 * 10 + ((Nat.digitChar (n % 10)).toNat - 48)), hv]
      have hn : n % 10 = n := by omega
      rw [hn]
      ring
    · rw [Nat.toDigitsCore]
      simp only [hq, if_false, reduceIte]
      have hlt : n / 10 < 10 ^ fuel := by
        rw [Nat.div_lt_iff_lt_mul (by norm_num : (0:Nat) < 10)]
        calc n < 10 ^ (fuel + 1) := h
          _ = 10 ^ fuel * 10 := by rw [pow_succ]
      rw [ih (n / 10) (Nat.digitChar (n % 10) :: ds) hlt]
      simp only [decodeDigits, List.foldl_cons, List.length_cons]
      rw [decodeDigits_foldl_shift ds (0 * 10 + ((Nat.digitChar (n % 10)).toNat - 48)), hv]
      calc n / 10 * 10 ^ (ds.length + 1) +
            ((0 * 10 + n % 10) * 10 ^ ds.length +
              List.foldl (fun acc c => acc * 10 + (c.toNat - 48)) 0 ds)
          = (10 * (n / 10) + n % 10) * 10 ^ ds.length +
              List.foldl (fun acc c => acc * 10 + (c.toNat - 48)) 0 ds := by
            rw [pow_succ]; ring
        _ = n * 10 ^ ds.length +
              List.foldl (fun acc c => acc * 10 + (c.toNat - 48)) 0 ds := by
            rw [Nat.div_add_mod]

theorem decodeDigits_toDigits (n : Nat) :
    decodeDigits (Nat.toDigits 10 n) = n := by
  have h : n < 10 ^ (n + 1) := by
    have h1 := Nat.lt_pow_self (by norm_num : (1:Nat) < 10) n
    have h2 : (10:Nat) ^ n ≤ 10 ^ (n + 1) :=
      Nat.pow_le_pow_right (by norm_num) (Nat.le_succ n)
    omega
  rw [Nat.toDigits, decodeDigits_toDigitsCore (n + 1) n [] h]
  simp [decodeDigits]

theorem natRepr_injective {m n : Nat} (h : Nat.repr m = Nat.repr n) :
    m = n := by
  have hd : Nat.toDigits 10 m = Nat.toDigits 10 n := congrArg String.data h
  have h2 := congrArg decodeDigits hd
  rwa [decodeDigits_toDigits, decodeDigits_toDigits] at h2

theorem indexedName_injective {p : String} {a b : Nat}
    (h : indexedName p a = indexedName p b) : a = b := by
  unfold indexedName at h
  have hd := congrArg String.data h
  simp only [String.data_append, List.append_assoc] at hd
  have h1 := List.append_cancel_left hd
  have h2 := List.append_cancel_left h1
  exact natRepr_injective (String.ext h2)

theorem exists_fresh_indexedName (usedNames : List String) (p : String)
    (start : Nat) :
    ∃ k, k ≤ usedNames.length ∧ indexedName p (start + k) ∉ usedNames := by
  by_contra hall
  push_neg at hall
  have hmem : ∀ i : Fin (usedNames.length + 1),
      indexedName p (start + i.val) ∈ usedNames.toFinset := fun i =>
    List.mem_toFinset.2 (hall i.val (Nat.lt_succ_iff.1 i.isLt))
  have hinj : Set.InjOn
      (fun i : Fin (usedNames.length + 1) => indexedName p (start + i.val))
      ↑(Finset.univ : Finset (Fin (usedNames.length + 1))) := by
    intro i _ j _ hij
    have := indexedName_injective hij
    exact Fin.ext (by omega)
  have hcard := Finset.card_le_card_of_injOn _ (fun i _ => hmem i) hinj
  rw [Finset.card_univ, Fintype.card_fin] at hcard
  have := List.toFinset_card_le usedNames
  omega

theorem createUniqueNameAux_spec (usedNames : List String) (p : String) :
    ∀ (fuel index : Nat),
      (∃ k, k < fuel ∧ indexedName p (index + k) ∉ usedNames) →
      ∃ N, index ≤ N ∧
        createUniqueNameAux usedNames p fuel index
          = (indexedName p N, N + 1) ∧
        indexedName p N ∉ usedNames ∧
        ∀ m, index ≤ m → m < N → indexedName p m ∈ usedNames := by
  intro fuel
  induction fuel with
  | zero =>
    intro index h
    obtain ⟨k, hk, -⟩ := h
    exact absurd hk (Nat.not_lt_zero k)
  | succ fuel ih =>
    intro index h
    obtain ⟨k, hk, hfree⟩ := h
    by_cases hc : usedNames.contains (indexedName p index)
    · have hcm : indexedName p index ∈ usedNames := List.elem_iff.1 hc
      have hk0 : k ≠ 0 := fun h0 => hfree (by
        rw [h0, Nat.add_zero]; exact hcm)
      obtain ⟨N, hN1, hN2, hN3, hN4⟩ := ih (index + 1)
        ⟨k - 1, by omega, by
          rw [show index + 1 + (k - 1) = index + k by omega]; exact hfree⟩
      refine ⟨N, by omega, ?_, hN3, ?_⟩
      · simp only [createUniqueNameAux, hc, if_true]
        exact hN2
      · intro m hm1 hm2
        rcases Nat.eq_or_lt_of_le hm1 with heq | hlt
        · rw [← heq]; exact hcm
        · exact hN4 m hlt hm2
    · refine ⟨index, Nat.le_refl _, ?_, fun hm => hc (List.elem_iff.2 hm),
        fun m hm1 hm2 => by omega⟩
      simp only [createUniqueNameAux, hc, Bool.false_eq_true, if_false]

/-- C6: `createUniqueName(usedNames, namePrefix, startindex)` returns
`namePrefix_N` for the least `N ≥ startindex` with `namePrefix_N` not among
the used names, paired with `N + 1` as the next suffix; being a total Lean
function, it is deterministic and terminates. -/
theorem createUniqueName_spec (usedNames : List String) (p : String)
    (startindex : Nat) :
    ∃ N, startindex ≤ N ∧
      createUniqueName usedNames p startindex = (indexedName p N, N + 1) ∧
      indexedName p N ∉ usedNames ∧
      ∀ m, startindex ≤ m → m < N → indexedName p m ∈ usedNames := by
  obtain ⟨k, hk, hfree⟩ := exists_fresh_indexedName usedNames p startindex
  exact createUniqueNameAux_spec usedNames p (usedNames.length + 1)
    startindex ⟨k, by omega, hfree⟩

/-! ## The decompose operation and document mutation -/

/-- C2 (amended): `getJobComponentsFromConfig` mutates its input only
through the initial strip of auto-generated sections; on a document with no
well-formed generated section in any role and no tensorboard port entry in
any role's port map, the document comes back exactly as it went in, with
all derived results returned as new values. -/
theorem getJobComponentsFromConfig_strip_only (p : Protocol)
    (context : Context)
    (hsec : ∀ kr ∈ p.taskRoles, ∀ tags ∈ generatedSectionTags,
      ¬ wellFormedSection (kr.2.commands.getD []) tags.1 tags.2)
    (hport : ∀ e tb, p.extras = some e → e.tensorBoard = some tb →
      ∀ kr ∈ p.taskRoles, ∀ q ∈ kr.2.ports.getD [],
        q.1 ≠ tensorBoardPortName tb.randomStr) :
    ∃ comps : Components,
      getJobComponentsFromConfig (some p) context = some (p, comps) := by
  have hid : ∀ kr ∈ p.taskRoles,
      removeAutoGeneratedTaskRole
        (match p.extras with
          | some e =>
            (match e.tensorBoard with
              | some tb => some (tensorBoardPortName tb.randomStr)
              | none => none)
          | none => none) kr = kr := by
    intro kr hkr
    apply removeAutoGeneratedTaskRole_id
    · exact hsec kr hkr
    · intro port hp ports hpo
      cases hex : p.extras with
      | none => simp [hex] at hp
      | some e =>
        cases htb : e.tensorBoard with
        | none => simp [hex, htb] at hp
        | some tb =>
          simp only [hex, htb] at hp
          injection hp with hp'
          apply jsGetKey_eq_none
          intro q hq
          have hmemq : q ∈ kr.2.ports.getD [] := by rw [hpo]; exact hq
          have hne := hport e tb hex htb kr hkr q hmemq
          rw [← hp']
          exact hne
  have htr : (removeAutoGeneratedCodeFromProtocolTaskRoles p).taskRoles
      = p.taskRoles := by
    rw [show (removeAutoGeneratedCodeFromProtocolTaskRoles p).taskRoles
        = p.taskRoles.map (removeAutoGeneratedTaskRole
            (match p.extras with
              | some e =>
                (match e.tensorBoard with
                  | some tb => some (tensorBoardPortName tb.randomStr)
                  | none => none)
              | none => none)) from rfl]
    rw [List.map_congr_left hid, List.map_id']
  have hstrip : removeAutoGeneratedCodeFromProtocolTaskRoles p = p := by
    calc removeAutoGeneratedCodeFromProtocolTaskRoles p
        = { p with taskRoles :=
            (removeAutoGeneratedCodeFromProtocolTaskRoles p).taskRoles } :=
          rfl
      _ = { p with taskRoles := p.taskRoles } := by rw [htr]
      _ = p := rfl
  refine ⟨componentsOfConfig
    (removeAutoGeneratedCodeFromProtocolTaskRoles p) context, ?_⟩
  show some (removeAutoGeneratedCodeFromProtocolTaskRoles p,
    componentsOfConfig (removeAutoGeneratedCodeFromProtocolTaskRoles p)
      context) = _
  rw [hstrip]

/-- C2 counterexample: `getJobComponentsFromConfig` is not read-only — on a
document whose only role carries a well-formed tensorboard section, the
post-call document differs from the input (the section has been stripped in
place). -/
theorem getJobComponentsFromConfig_mutates_counterexample :
    (getJobComponentsFromConfig
      (some { taskRoles :=
          [("a",
            { commands := some [TENSORBOARD_CMD_START, "tb",
                TENSORBOARD_CMD_END, "user cmd"],
              ports := some [] })] }) ⟨[]⟩).map (fun pc => pc.1) ≠
    some { taskRoles :=
        [("a",
          { commands := some [TENSORBOARD_CMD_START, "tb",
              TENSORBOARD_CMD_END, "user cmd"],
            ports := some [] })] } := by decide

/-- C2 witness: a document free of generated sections passes through the
decompose operation unchanged. -/
theorem getJobComponentsFromConfig_strip_only_witness :
    ∃ comps : Components,
      getJobComponentsFromConfig
        (some { taskRoles :=
            [("a", { commands := some ["echo hi"], ports := some [] })] })
        ⟨[]⟩ =
      some ({ taskRoles :=
          [("a", { commands := some ["echo hi"], ports := some [] })] },
        comps) := by
  exact getJobComponentsFromConfig_strip_only
    { taskRoles :=
        [("a", { commands := some ["echo hi"], ports := some [] })] }
    ⟨[]⟩ (by decide) (fun e tb h => Option.noConfusion h)

/-! ## The inject/strip round trip -/

/-- Rewriting the strip pass as a map once the tensorboard port expression
is known. -/
theorem strip_eq_map (p : Protocol) (tbPort : Option String)
    (h : (match p.extras with
      | some e =>
        (match e.tensorBoard with
          | some tb => some (tensorBoardPortName tb.randomStr)
          | none => none)
      | none => none) = tbPort) :
    removeAutoGeneratedCodeFromProtocolTaskRoles p =
      { p with taskRoles :=
          p.taskRoles.map (removeAutoGeneratedTaskRole tbPort) } := by
  subst h
  rfl

/-- The strip pass undoes the tensorboard injection on the first role: the
injected 4-line block is removed as the (only) tensorboard section and the
injected port entry is deleted, provided the original commands are
sentinel-free and the original ports lack the generated key. -/
theorem removeAutoGeneratedTaskRole_injected (port : String) (k : String)
    (r : TaskRole) (tb : TensorBoardExtras) (cs : List String)
    (ps : List (String × Nat)) (hcs : r.commands = some cs)
    (hps : r.ports = some ps)
    (hcsfree : ∀ c ∈ cs, c ∉ sentinelLines)
    (hpsfree : ∀ q ∈ ps, q.1 ≠ port) :
    removeAutoGeneratedTaskRole (some port)
      (k, { r with
        commands := some ([TENSORBOARD_CMD_START, AUTO_GENERATE_NOTIFY,
          tensorBoardLaunchCommand tb, TENSORBOARD_CMD_END] ++ cs),
        ports := some (jsSetKey ps port 1) }) = (k, r) := by
  have hCS : CUSTOM_STORAGE_START ∉
      ([TENSORBOARD_CMD_START, AUTO_GENERATE_NOTIFY,
        tensorBoardLaunchCommand tb, TENSORBOARD_CMD_END] ++ cs) := by
    intro hmem
    rcases List.mem_append.1 hmem with hb | hc
    · simp only [List.mem_cons, List.not_mem_nil, or_false] at hb
      rcases hb with h | h | h | h
      · exact absurd h (by decide)
      · exact absurd h (by decide)
      · exact sentinel_ne_launch (by decide) tb h
      · exact absurd h (by decide)
    · exact hcsfree _ hc (by decide)
  have hTW : TEAMWISE_DATA_CMD_START ∉
      ([TENSORBOARD_CMD_START, AUTO_GENERATE_NOTIFY,
        tensorBoardLaunchCommand tb, TENSORBOARD_CMD_END] ++ cs) := by
    intro hmem
    rcases List.mem_append.1 hmem with hb | hc
    · simp only [List.mem_cons, List.not_mem_nil, or_false] at hb
      rcases hb with h | h | h | h
      · exact absurd h (by decide)
      · exact absurd h (by decide)
      · exact sentinel_ne_launch (by decide) tb h
      · exact absurd h (by decide)
    · exact hcsfree _ hc (by decide)
  have h1 : removeTagSection
      ([TENSORBOARD_CMD_START, AUTO_GENERATE_NOTIFY,
        tensorBoardLaunchCommand tb, TENSORBOARD_CMD_END] ++ cs)
      CUSTOM_STORAGE_START CUSTOM_STORAGE_END =
      [TENSORBOARD_CMD_START, AUTO_GENERATE_NOTIFY,
        tensorBoardLaunchCommand tb, TENSORBOARD_CMD_END] ++ cs :=
    removeTagSection_of_not_mem _ hCS
  have h2 : removeTagSection
      ([TENSORBOARD_CMD_START, AUTO_GENERATE_NOTIFY,
        tensorBoardLaunchCommand tb, TENSORBOARD_CMD_END] ++ cs)
      TEAMWISE_DATA_CMD_START TEAMWISE_DATA_CMD_END =
      [TENSORBOARD_CMD_START, AUTO_GENERATE_NOTIFY,
        tensorBoardLaunchCommand tb, TENSORBOARD_CMD_END] ++ cs :=
    removeTagSection_of_not_mem _ hTW
  have het : TENSORBOARD_CMD_END ∉
      [AUTO_GENERATE_NOTIFY, tensorBoardLaunchCommand tb] := by
    intro hmem
    simp only [List.mem_cons, List.not_mem_nil, or_false] at hmem
    rcases hmem with h | h
    · exact absurd h (by decide)
    · exact sentinel_ne_launch (by decide) tb h
  have h3 : removeTagSection
      ([TENSORBOARD_CMD_START, AUTO_GENERATE_NOTIFY,
        tensorBoardLaunchCommand tb, TENSORBOARD_CMD_END] ++ cs)
      TENSORBOARD_CMD_START TENSORBOARD_CMD_END = cs := by
    have h := @removeTagSection_found []
      [AUTO_GENERATE_NOTIFY, tensorBoardLaunchCommand tb] cs
      TENSORBOARD_CMD_START TENSORBOARD_CMD_END (by simp) het
    simpa using h
  have hemp : ([TENSORBOARD_CMD_START, AUTO_GENERATE_NOTIFY,
      tensorBoardLaunchCommand tb, TENSORBOARD_CMD_END] ++ cs).isEmpty
      = false := by simp
  unfold removeAutoGeneratedTaskRole
  simp only [Option.getD_some, hemp, Bool.false_eq_true, if_false,
    h1, h2, h3]
  rw [jsGetKey_setKey_self]
  simp only [Option.isSome_some, if_true]
  rw [jsDeleteKey_setKey_of_not_mem 1 hpsfree]
  rw [← hcs, ← hps]

/-- C1 (amended): injecting the tensorboard block and then stripping
auto-generated sections restores the document exactly, provided the
document is one the strip scan can decode unambiguously: the first role's
commands and ports fields are present, no role's commands contain a
sentinel line, and no role's ports already use the generated port key. -/
theorem inject_then_strip_roundTrip (p : Protocol) (k : String)
    (r : TaskRole) (rest : List (String × TaskRole)) (e : Extras)
    (tb : TensorBoardExtras) (cs : List String) (ps : List (String × Nat))
    (hroles : p.taskRoles = (k, r) :: rest)
    (hex : p.extras = some e) (htb : e.tensorBoard = some tb)
    (hcs : r.commands = some cs) (hps : r.ports = some ps)
    (hsent : ∀ kr ∈ p.taskRoles, ∀ c ∈ kr.2.commands.getD [],
      c ∉ sentinelLines)
    (hport : ∀ kr ∈ p.taskRoles, ∀ q ∈ kr.2.ports.getD [],
      q.1 ≠ tensorBoardPortName tb.randomStr) :
    (addTensorBoardCommandsToProtocolTaskRoles p).map
      removeAutoGeneratedCodeFromProtocolTaskRoles = some p := by
  have hcsfree : ∀ c ∈ cs, c ∉ sentinelLines := by
    intro c hc
    exact hsent (k, r) (by rw [hroles]; exact List.mem_cons_self _ _) c
      (show c ∈ r.commands.getD [] by rw [hcs]; exact hc)
  have hpsfree : ∀ q ∈ ps, q.1 ≠ tensorBoardPortName tb.randomStr := by
    intro q hq
    exact hport (k, r) (by rw [hroles]; exact List.mem_cons_self _ _) q
      (show q ∈ r.ports.getD [] by rw [hps]; exact hq)
  have hinj : addTensorBoardCommandsToProtocolTaskRoles p =
      some { p with taskRoles :=
        (k, { r with
          commands := some ([TENSORBOARD_CMD_START, AUTO_GENERATE_NOTIFY,
            tensorBoardLaunchCommand tb, TENSORBOARD_CMD_END] ++ cs),
          ports := some (jsSetKey ps (tensorBoardPortName tb.randomStr) 1)
          }) :: rest } := by
    unfold addTensorBoardCommandsToProtocolTaskRoles
    simp only [hex, htb, hroles, hcs, hps, Option.getD_some]
  rw [hinj, Option.map_some']
  congr 1
  have hmatch : (match ({ p with taskRoles :=
      (k, { r with
        commands := some ([TENSORBOARD_CMD_START, AUTO_GENERATE_NOTIFY,
          tensorBoardLaunchCommand tb, TENSORBOARD_CMD_END] ++ cs),
        ports := some (jsSetKey ps (tensorBoardPortName tb.randomStr) 1)
        }) :: rest } : Protocol).extras with
      | some e' =>
        (match e'.tensorBoard with
          | some tb' => some (tensorBoardPortName tb'.randomStr)
          | none => none)
      | none => none) = some (tensorBoardPortName tb.randomStr) := by
    simp only [hex, htb]
  rw [strip_eq_map _ _ hmatch, List.map_cons,
    removeAutoGeneratedTaskRole_injected (tensorBoardPortName tb.randomStr)
      k r tb cs ps hcs hps hcsfree hpsfree]
  have hid : ∀ kr ∈ rest, removeAutoGeneratedTaskRole
      (some (tensorBoardPortName tb.randomStr)) kr = kr := by
    intro kr hkr
    have hkrmem : kr ∈ p.taskRoles := by
      rw [hroles]; exact List.mem_cons_of_mem _ hkr
    apply removeAutoGeneratedTaskRole_id
    · intro tags htags
      fin_cases htags
      all_goals
        apply not_wellFormedSection_of_not_mem
        intro hmem
        exact hsent kr hkrmem _ hmem (by decide)
    · intro port hpo ports hpo2
      injection hpo with hpo'
      apply jsGetKey_eq_none
      intro q hq
      have hmemq : q ∈ kr.2.ports.getD [] := by rw [hpo2]; exact hq
      rw [← hpo']
      exact hport kr hkrmem q hmemq
  rw [List.map_congr_left hid, List.map_id', ← hroles]

/-- C1 counterexample: if the first role's commands already contain a
well-formed custom-storage section, inject-then-strip also removes that
user-authored section, so the round trip fails for that document. -/
theorem inject_then_strip_roundTrip_counterexample :
    (addTensorBoardCommandsToProtocolTaskRoles
      { taskRoles :=
          [("a",
            { commands := some [CUSTOM_STORAGE_START, "mount",
                CUSTOM_STORAGE_END],
              ports := some [] })],
        extras := some
          { tensorBoard := some
              { randomStr := "r",
                logDirectories := [("default", "/d")] } } }).map
      removeAutoGeneratedCodeFromProtocolTaskRoles ≠
    some
      { taskRoles :=
          [("a",
            { commands := some [CUSTOM_STORAGE_START, "mount",
                CUSTOM_STORAGE_END],
              ports := some [] })],
        extras := some
          { tensorBoard := some
              { randomStr := "r",
                logDirectories := [("default", "/d")] } } } := by
  decide

/-- C1 witness: the round trip at a concrete sentinel-free document. -/
theorem inject_then_strip_roundTrip_witness :
    (addTensorBoardCommandsToProtocolTaskRoles
      { taskRoles :=
          [("a", { commands := some ["echo hi"], ports := some [] })],
        extras := some
          { tensorBoard := some
              { randomStr := "r",
                logDirectories := [("default", "/d")] } } }).map
      removeAutoGeneratedCodeFromProtocolTaskRoles =
    some
      { taskRoles :=
          [("a", { commands := some ["echo hi"], ports := some [] })],
        extras := some
          { tensorBoard := some
              { randomStr := "r",
                logDirectories := [("default", "/d")] } } } := by
  exact inject_then_strip_roundTrip
    { taskRoles :=
        [("a", { commands := some ["echo hi"], ports := some [] })],
      extras := some
        { tensorBoard := some
            { randomStr := "r", logDirectories := [("default", "/d")] } } }
    "a" { commands := some ["echo hi"], ports := some [] } []
    { tensorBoard := some
        { randomStr := "r", logDirectories := [("default", "/d")] } }
    { randomStr := "r", logDirectories := [("default", "/d")] }
    ["echo hi"] [] rfl rfl rfl rfl rfl (by decide) (by decide)

end MarketUtils
